import Mathlib

set_option linter.unusedVariables false

/-!
Verification of the semi-supervised anomaly detector of
`src/backend/semi_supervised_model.py` (class `SemiSupervisedAnomalyDetector`).

Shallow embedding conventions:
* Python floats are modelled as rationals (`ℚ`); feature matrices as
  `List (List ℚ)`; label vectors as `List Int` with the source's encoding
  (1 = normal, -1 = anomaly).
* A Python dict-shaped explanation record is a structure with `Option`
  fields: `none` models a missing key, so `d.get(k, default)` becomes
  `Option.getD`.
* The external collaborators (the sentence-transformer encoder, sklearn's
  `cosine_similarity`, and the isolation forest) are not code of this
  repository; they are modelled as an environment of opaque-to-the-core but
  executable functions supplied by the caller, exactly as the source treats
  them as black boxes.
* Methods that mutate `self` return the (possibly partially) mutated state
  together with `Option PyErr`; an exception raised mid-method leaves the
  mutations already performed visible, matching Python's in-place semantics.
  `predict` assigns no attribute in the source, so it is embedded as a pure
  function returning `Except PyErr (List Int)`.
-/

/-- Python exceptions that the embedded code can surface. `dimensionError`
stands for the error the external base scorer raises on an empty or ragged
feature matrix (the spec's `DimensionError`); `keyError` models the
`KeyError` of a direct `exp` subscript on a missing key; `nameError` models
the `NameError` of evaluating the never-imported name `torch`;
`indexError` models a numpy out-of-range index assignment. -/
inductive PyErr where
  | dimensionError
  | keyError
  | nameError
  | indexError
deriving Repr, DecidableEq

/-- One explanation record, a Python dict with keys `explanation` (the text)
and `is_anomaly`. `none` in a field models a missing key. -/
structure Explanation where
  explanation : Option String
  is_anomaly : Option Bool
deriving Repr, DecidableEq

/-- Default record used by positional lookups (`List.getD`). -/
def dExp : Explanation := Explanation.mk none none

/-- A fitted isolation-forest model, abstracted to its two consumed
capabilities: per-row labels (1 normal / -1 anomaly) and per-row scores. -/
structure ForestModel where
  predictFn : List (List ℚ) → List Int
  scoreFn : List (List ℚ) → List ℚ

/-- The external collaborators of the detector: the sentence encoder, the
cosine-similarity kernel of sklearn, and the isolation-forest fitting
routine. -/
structure Env where
  encode : String → List ℚ
  cosSim : List ℚ → List ℚ → ℚ
  fitForest : List (List ℚ) → ForestModel

/-- The attributes of a `SemiSupervisedAnomalyDetector` instance, as set in
`__init__`: hyperparameters, the isolation forest object, and the two
explanation-store attributes `llm_explanations_` / `llm_embeddings_`
(both `None` until seeded). -/
structure DetectorState where
  contamination : ℚ
  n_estimators : Nat
  random_state : Int
  llm_confidence_threshold : ℚ
  use_llm_supervision : Bool
  isolation_forest : ForestModel
  llm_explanations_ : Option (List Explanation)
  llm_embeddings_ : Option (List (List ℚ))

/-- Modelled from the spec: the external base scorer's input validation.
The spec says `fit` "fails with `DimensionError` if `X` is empty or
ragged"; in the source this check lives inside the external sklearn
`IsolationForest.fit`, not under `src/`, so it is taken from the spec's
words: a matrix is acceptable when it has at least one row and all rows
share one length. -/
def matrixOk (X : List (List ℚ)) : Bool :=
  !X.isEmpty && X.all (fun r => r.length = (X.headD []).length)

/-- `self.isolation_forest.fit(X)` as called at the end of `fit`: on a valid
matrix the forest attribute is replaced by the freshly fitted model, on an
empty/ragged matrix the external error surfaces and the state is returned
as it was at the call. -/
def fitBase (env : Env) (s : DetectorState) (X : List (List ℚ)) :
    DetectorState × Option PyErr :=
  if matrixOk X then ({ s with isolation_forest := env.fitForest X }, none)
  else (s, some PyErr.dimensionError)

/-- The list comprehension `[exp['explanation'] for exp in explanations]` of
`fit` (line 63): a direct subscript, so a record missing the key makes the
whole comprehension raise `KeyError`, modelled as `none`. -/
def extractTexts : List Explanation → Option (List String)
  | [] => some []
  | e :: rest =>
      match e.explanation, extractTexts rest with
      | some t, some ts => some (t :: ts)
      | _, _ => none

/-- `SemiSupervisedAnomalyDetector.fit(X, y=None, explanations=None)`.
Order matters and is kept from the source: when supervision is on and
explanations are given, `llm_explanations_` is assigned first (line 61),
then the texts are extracted (line 63, may raise `KeyError` leaving the
previous assignment in place), then `llm_embeddings_` is assigned, and
finally the forest is fitted (line 67). `y` is accepted and ignored, as in
the source. -/
def SemiSupervisedAnomalyDetector.fit (env : Env) (s : DetectorState)
    (X : List (List ℚ)) (y : Option (List Int))
    (explanations : Option (List Explanation)) :
    DetectorState × Option PyErr :=
  match explanations with
  | some exps =>
      if s.use_llm_supervision then
        let s1 := { s with llm_explanations_ := some exps }
        match extractTexts exps with
        | none => (s1, some PyErr.keyError)
        | some texts =>
            fitBase env { s1 with llm_embeddings_ := some (texts.map env.encode) } X
      else fitBase env s X
  | none => fitBase env s X

/-- `np.max` over one row of the similarity matrix (`axis=1`); only ever
applied to a non-empty list in the source, where the store is non-empty. -/
def maxList : List ℚ → ℚ
  | [] => 0
  | [x] => x
  | x :: y :: rest => max x (maxList (y :: rest))

/-- The override test of line 107:
`sim > self.llm_confidence_threshold and exp.get('is_anomaly', False)`. -/
def flipCond (thr : ℚ) (sim : ℚ) (e : Explanation) : Bool :=
  decide (thr < sim) && e.is_anomaly.getD false

/-- The update loop of lines 106-108:
`for i, (sim, exp) in enumerate(zip(max_similarities, explanations)):` with
`base_preds[i] = -1` under `flipCond`. A numpy assignment at an index at or
beyond the array length raises `IndexError`. -/
def overrideLoop (thr : ℚ) (preds : List Int) (i : Nat) :
    List (ℚ × Explanation) → Except PyErr (List Int)
  | [] => Except.ok preds
  | (sim, e) :: rest =>
      if flipCond thr sim e then
        if i < preds.length then overrideLoop thr (preds.set i (-1)) (i + 1) rest
        else Except.error PyErr.indexError
      else overrideLoop thr preds (i + 1) rest

/-- `SemiSupervisedAnomalyDetector.predict(X, explanations=None)`
(lines 70-110), embedded clause by clause: base predictions from the
forest; early return when supervision is off or `explanations is None`;
early return when every `exp.get('explanation', '')` is empty
(`not any(explanation_texts)`); early return when `llm_embeddings_` is
`None` or has length 0; otherwise the cosine-similarity row maxima are
zipped with the records and the override loop runs. -/
def SemiSupervisedAnomalyDetector.predict (env : Env) (s : DetectorState)
    (X : List (List ℚ)) (explanations : Option (List Explanation)) :
    Except PyErr (List Int) :=
  let base_preds := s.isolation_forest.predictFn X
  if !s.use_llm_supervision || explanations.isNone then Except.ok base_preds
  else
    let exps := explanations.getD []
    let explanation_texts := exps.map (fun e => e.explanation.getD "")
    if explanation_texts.all (fun t => t = "") then Except.ok base_preds
    else
      let new_embeddings := explanation_texts.map env.encode
      match s.llm_embeddings_ with
      | none => Except.ok base_preds
      | some stored =>
          if stored.length = 0 then Except.ok base_preds
          else
            let max_similarities :=
              new_embeddings.map (fun v => maxList (stored.map (fun w => env.cosSim v w)))
            overrideLoop s.llm_confidence_threshold base_preds 0
              (max_similarities.zip exps)

/-- `score_samples(X)` (line 116): the negated forest score, a pure function
of the state. -/
def SemiSupervisedAnomalyDetector.score_samples (s : DetectorState)
    (X : List (List ℚ)) : List ℚ :=
  (s.isolation_forest.scoreFn X).map (fun q => -q)

/-- The comprehension of lines 136-139:
`[exp for exp, fb in zip(explanations, feedback) if fb and exp.get('explanation')]`
(`zip` truncates to the shorter sequence; `exp.get('explanation')` is truthy
exactly when the key is present with a non-empty string). -/
def keptRecords (explanations : List Explanation) (feedback : List Bool) :
    List Explanation :=
  ((explanations.zip feedback).filter
    (fun p => p.2 && !(p.1.explanation.getD "" == ""))).map Prod.fst

/-- `update_with_feedback(X, explanations, feedback)` (lines 118-157).
The filter keeps pairs with true feedback and a truthy
`exp.get('explanation')`; when nothing qualifies the method returns early;
otherwise `llm_explanations_` is extended (line 148) and then the
embeddings are concatenated — but line 157 evaluates the name `torch`,
which is never imported in the module, so whenever `llm_embeddings_` is not
`None` the method raises `NameError` after the record list was already
extended. `X` is accepted and ignored, as in the source. -/
def SemiSupervisedAnomalyDetector.update_with_feedback (env : Env)
    (s : DetectorState) (X : List (List ℚ))
    (explanations : List Explanation) (feedback : List Bool) :
    DetectorState × Option PyErr :=
  if !s.use_llm_supervision then (s, none)
  else
    let new_explanations := keptRecords explanations feedback
    if new_explanations.isEmpty then (s, none)
    else
      let newList := s.llm_explanations_.getD [] ++ new_explanations
      let s1 := { s with llm_explanations_ := some newList }
      let new_embeddings :=
        new_explanations.map (fun e => env.encode (e.explanation.getD ""))
      match s.llm_embeddings_ with
      | none => ({ s1 with llm_embeddings_ := some new_embeddings }, none)
      | some _ => (s1, some PyErr.nameError)

/-- The maximal cosine similarity of one row's encoded explanation text
against the store, as computed on lines 97-103. -/
def rowSim (env : Env) (stored : List (List ℚ)) (e : Explanation) : ℚ :=
  maxList (stored.map (fun w => env.cosSim (env.encode (e.explanation.getD "")) w))

/- Concrete instances used by witnesses and counterexamples. -/

/-- A concrete forest: a row is anomalous (label -1) exactly when its first
feature is negative; the score is the first feature. -/
def forestEx : ForestModel where
  predictFn := fun X => X.map (fun r => if r.headD 0 < 0 then (-1 : Int) else 1)
  scoreFn := fun X => X.map (fun r => r.headD 0)

/-- A concrete environment standing in for the external collaborators:
every text encodes to the one-dimensional unit vector `[1]`, the similarity
kernel returns 1 on equal vectors and 0 otherwise (the cosine similarity of
equal unit vectors is 1), and fitting always yields `forestEx`. -/
def envEx : Env where
  encode := fun _ => [1]
  cosSim := fun a b => if a == b then 1 else 0
  fitForest := fun _ => forestEx

/-- A variant environment whose similarity is always exactly 7/10, used to
exercise the threshold boundary. -/
def envEq : Env where
  encode := fun _ => [1]
  cosSim := fun _ _ => mkRat 7 10
  fitForest := fun _ => forestEx

/-- A detector seeded with one anomalous stored record, threshold 7/10. -/
def stateEx : DetectorState where
  contamination := mkRat 1 20
  n_estimators := 100
  random_state := 42
  llm_confidence_threshold := mkRat 7 10
  use_llm_supervision := true
  isolation_forest := forestEx
  llm_explanations_ := some [Explanation.mk (some "flash crash") (some true)]
  llm_embeddings_ := some [[1]]

/-- Same detector but the single stored record is tagged non-anomalous. -/
def stateExFalse : DetectorState :=
  { stateEx with
      llm_explanations_ := some [Explanation.mk (some "normal volatility") (some false)] }

/-- A freshly constructed detector: both store attributes are `None`. -/
def freshState : DetectorState :=
  { stateEx with llm_explanations_ := none, llm_embeddings_ := none }

/-- Detector with text supervision disabled. -/
def stateOff : DetectorState := { stateEx with use_llm_supervision := false }

/- Helper lemmas (shared between the claim theorems; none of them is a
claim's theorem). -/

/-- Default entry for positional lookups in the zipped similarity list. -/
def dPair : ℚ × Explanation := (0, dExp)

lemma getD_set_self {l : List Int} {i : Nat} (h : i < l.length) (x d : Int) :
    (l.set i x).getD i d = x := by
  simp [List.getD, List.getElem?_set_self, h]

lemma getD_set_ne {l : List Int} {i j : Nat} (h : i ≠ j) (x d : Int) :
    (l.set i x).getD j d = l.getD j d := by
  simp [List.getD, List.getElem?_set_ne h]

lemma getD_map_lt {α β : Type} (f : α → β) {l : List α} {j : Nat}
    (h : j < l.length) (d : β) (d' : α) : (l.map f).getD j d = f (l.getD j d') := by
  simp [List.getD, List.getElem?_map, List.getElem?_eq_getElem, h]

lemma getD_ge {α : Type} {l : List α} {j : Nat} (h : l.length ≤ j) (d : α) :
    l.getD j d = d := by
  simp [List.getD, List.getElem?_eq_none h]

lemma zip_map_self {α β : Type} (f : α → β) :
    ∀ l : List α, (l.map f).zip l = l.map (fun a => (f a, a))
  | [] => rfl
  | a :: l => by simp [zip_map_self f l]

lemma overrideLoop_length (thr : ℚ) (l : List (ℚ × Explanation)) :
    ∀ (preds res : List Int) (i : Nat),
      overrideLoop thr preds i l = Except.ok res → res.length = preds.length := by
  induction l with
  | nil =>
      intro preds res i h
      simp only [overrideLoop] at h
      cases h
      rfl
  | cons p rest ih =>
      intro preds res i h
      obtain ⟨sim, e⟩ := p
      simp only [overrideLoop] at h
      by_cases hf : flipCond thr sim e = true
      · rw [if_pos hf] at h
        by_cases hi : i < preds.length
        · rw [if_pos hi] at h
          have := ih _ _ _ h
          simpa using this
        · rw [if_neg hi] at h
          cases h
      · rw [if_neg hf] at h
        exact ih _ _ _ h

lemma overrideLoop_isOk (thr : ℚ) (l : List (ℚ × Explanation)) :
    ∀ (preds : List Int) (i : Nat), i + l.length ≤ preds.length →
      ∃ res, overrideLoop thr preds i l = Except.ok res := by
  induction l with
  | nil => intro preds i h; exact ⟨preds, rfl⟩
  | cons p rest ih =>
      intro preds i h
      obtain ⟨sim, e⟩ := p
      simp only [overrideLoop]
      by_cases hf : flipCond thr sim e = true
      · rw [if_pos hf]
        have hi : i < preds.length := by
          simp only [List.length_cons] at h
          omega
        rw [if_pos hi]
        apply ih
        simp only [List.length_set, List.length_cons] at h ⊢
        omega
      · rw [if_neg hf]
        apply ih
        simp only [List.length_cons] at h
        omega

lemma overrideLoop_getD (thr : ℚ) (l : List (ℚ × Explanation)) :
    ∀ (preds res : List Int) (i : Nat),
      overrideLoop thr preds i l = Except.ok res →
      ∀ (j : Nat),
        res.getD j 0 =
          if i ≤ j ∧ j - i < l.length ∧
              flipCond thr (l.getD (j - i) dPair).1 (l.getD (j - i) dPair).2 = true
          then -1 else preds.getD j 0 := by
  induction l with
  | nil =>
      intro preds res i h j
      simp only [overrideLoop] at h
      cases h
      simp
  | cons p rest ih =>
      intro preds res i h j
      obtain ⟨sim, e⟩ := p
      simp only [overrideLoop] at h
      by_cases hf : flipCond thr sim e = true
      · rw [if_pos hf] at h
        by_cases hi : i < preds.length
        · rw [if_pos hi] at h
          have hrec := ih _ _ _ h j
          rcases Nat.lt_trichotomy j i with hji | hji | hji
          · have c1 : ¬ (i ≤ j) := by omega
            have c2 : ¬ (i + 1 ≤ j) := by omega
            rw [if_neg (by tauto)] at hrec
            rw [if_neg (by tauto), hrec]
            exact getD_set_ne (by omega) _ _
          · subst hji
            have c2 : ¬ (j + 1 ≤ j) := by omega
            rw [if_neg (by tauto)] at hrec
            rw [hrec, if_pos ?_]
            · exact getD_set_self hi _ _
            · refine ⟨Nat.le_refl j, ?_, ?_⟩
              · simp
              · simpa using hf
          · have hsub : j - i = (j - (i + 1)) + 1 := by omega
            rw [hsub]
            simp only [List.getD_cons_succ, List.length_cons]
            rw [hrec]
            by_cases hc : i + 1 ≤ j ∧ j - (i + 1) < rest.length ∧
                flipCond thr (rest.getD (j - (i + 1)) dPair).1
                  (rest.getD (j - (i + 1)) dPair).2 = true
            · rw [if_pos hc, if_pos ⟨by omega, by omega, hc.2.2⟩]
            · rw [if_neg hc, if_neg ?_, getD_set_ne (by omega) _ _]
              intro hc2
              exact hc ⟨by omega, by omega, hc2.2.2⟩
        · rw [if_neg hi] at h
          cases h
      · rw [if_neg hf] at h
        have hrec := ih _ _ _ h j
        rcases Nat.lt_trichotomy j i with hji | hji | hji
        · rw [hrec, if_neg (fun hc => absurd hc.1 (by omega)),
            if_neg (fun hc => absurd hc.1 (by omega))]
        · subst hji
          rw [hrec, if_neg (fun hc => absurd hc.1 (by omega)), if_neg ?_]
          intro hc
          have hzero : (((sim, e) :: rest).getD (j - j) dPair) = (sim, e) := by simp
          rw [hzero] at hc
          exact hf hc.2.2
        · have hsub : j - i = (j - (i + 1)) + 1 := by omega
          rw [hrec, hsub]
          simp only [List.getD_cons_succ, List.length_cons]
          by_cases hc : i + 1 ≤ j ∧ j - (i + 1) < rest.length ∧
              flipCond thr (rest.getD (j - (i + 1)) dPair).1
                (rest.getD (j - (i + 1)) dPair).2 = true
          · rw [if_pos hc, if_pos ⟨by omega, by omega, hc.2.2⟩]
          · rw [if_neg hc, if_neg ?_]
            intro hc2
            exact hc ⟨by omega, by omega, hc2.2.2⟩

/-- On the main path (supervision on, explanations given, not all texts
empty, non-empty store) `predict` is the override loop applied to the
per-row maximal store similarities. -/
lemma predict_main_eq (env : Env) (s : DetectorState) (X : List (List ℚ))
    (exps : List Explanation) (stored : List (List ℚ))
    (hsup : s.use_llm_supervision = true)
    (hstore : s.llm_embeddings_ = some stored)
    (hne : stored.length ≠ 0)
    (htext : ((exps.map (fun e => e.explanation.getD "")).all (fun t => t = "")) = false) :
    SemiSupervisedAnomalyDetector.predict env s X (some exps) =
      overrideLoop s.llm_confidence_threshold (s.isolation_forest.predictFn X) 0
        (exps.map (fun e => (rowSim env stored e, e))) := by
  simp only [SemiSupervisedAnomalyDetector.predict, hsup, htext, hstore, hne,
    Bool.not_true, Bool.false_or, Option.isNone_some, Option.getD_some,
    List.map_map]
  rw [if_neg not_false, ← zip_map_self (fun e => rowSim env stored e) exps]
  simp only [rowSim]
  rfl

/-- Every evaluation of `predict` is either a pass-through of the base
predictions or, on the main path, the override loop applied to the
per-row maximal store similarities. -/
lemma predict_cases (env : Env) (s : DetectorState) (X : List (List ℚ))
    (expl : Option (List Explanation)) :
    SemiSupervisedAnomalyDetector.predict env s X expl =
      Except.ok (s.isolation_forest.predictFn X) ∨
    ∃ exps stored, expl = some exps ∧ s.llm_embeddings_ = some stored ∧
      s.use_llm_supervision = true ∧ stored.length ≠ 0 ∧
      ((exps.map (fun e => e.explanation.getD "")).all (fun t => t = "")) = false ∧
      SemiSupervisedAnomalyDetector.predict env s X expl =
        overrideLoop s.llm_confidence_threshold (s.isolation_forest.predictFn X) 0
          (exps.map (fun e => (rowSim env stored e, e))) := by
  cases expl with
  | none => left; simp [SemiSupervisedAnomalyDetector.predict]
  | some exps =>
      by_cases hsup : s.use_llm_supervision = true
      · by_cases htext :
          ((exps.map (fun e => e.explanation.getD "")).all (fun t => t = "")) = true
        · left
          simp [SemiSupervisedAnomalyDetector.predict, hsup, htext]
        · cases hemb : s.llm_embeddings_ with
          | none => left; simp [SemiSupervisedAnomalyDetector.predict, hsup, htext, hemb]
          | some stored =>
              by_cases hne : stored.length = 0
              · left
                simp [SemiSupervisedAnomalyDetector.predict, hsup, htext, hemb, hne]
              · right
                exact ⟨exps, stored, rfl, rfl, hsup, hne, by simpa using htext,
                  predict_main_eq env s X exps stored hsup hemb hne
                    (by simpa using htext)⟩
      · left
        simp [SemiSupervisedAnomalyDetector.predict,
          Bool.not_eq_true _ ▸ (Bool.not_eq_true s.use_llm_supervision).mpr] at hsup ⊢
        simp [hsup]

/-- The four pass-through conditions of lines 84-96: supervision off,
explanations omitted, store unseeded or empty, or every text empty. -/
lemma predict_passthrough (env : Env) (s : DetectorState) (X : List (List ℚ))
    (expl : Option (List Explanation))
    (h : s.use_llm_supervision = false ∨ expl = none ∨
         s.llm_embeddings_ = none ∨ s.llm_embeddings_ = some [] ∨
         ((expl.getD []).map (fun e => e.explanation.getD "")).all
           (fun t => t = "") = true) :
    SemiSupervisedAnomalyDetector.predict env s X expl =
      Except.ok (s.isolation_forest.predictFn X) := by
  rcases h with h | h | h | h | h
  · simp [SemiSupervisedAnomalyDetector.predict, h]
  · subst h
    simp [SemiSupervisedAnomalyDetector.predict]
  · cases expl with
    | none => simp [SemiSupervisedAnomalyDetector.predict]
    | some exps =>
        simp only [SemiSupervisedAnomalyDetector.predict, h]
        split
        · rfl
        · split
          · rfl
          · rfl
  · cases expl with
    | none => simp [SemiSupervisedAnomalyDetector.predict]
    | some exps =>
        simp only [SemiSupervisedAnomalyDetector.predict, h, List.length_nil]
        split
        · rfl
        · split
          · rfl
          · simp
  · cases expl with
    | none => simp [SemiSupervisedAnomalyDetector.predict]
    | some exps =>
        simp only [Option.getD_some] at h
        simp [SemiSupervisedAnomalyDetector.predict, h]

/-- Pointwise value of `predict` on the main path: row `j` is `-1` exactly
when `j` is paired with an explanation whose maximal store similarity
exceeds the threshold and whose own `is_anomaly` is true; otherwise it is
the base label. -/
lemma predict_getD_main (env : Env) (s : DetectorState) (X : List (List ℚ))
    (exps : List Explanation) (stored : List (List ℚ)) (res : List Int)
    (hsup : s.use_llm_supervision = true)
    (hstore : s.llm_embeddings_ = some stored)
    (hne : stored.length ≠ 0)
    (htext : ((exps.map (fun e => e.explanation.getD "")).all (fun t => t = "")) = false)
    (hok : SemiSupervisedAnomalyDetector.predict env s X (some exps) = Except.ok res)
    (j : Nat) :
    res.getD j 0 =
      if j < exps.length ∧
          flipCond s.llm_confidence_threshold (rowSim env stored (exps.getD j dExp))
            (exps.getD j dExp) = true
      then -1 else (s.isolation_forest.predictFn X).getD j 0 := by
  rw [predict_main_eq env s X exps stored hsup hstore hne htext] at hok
  have hchar := overrideLoop_getD s.llm_confidence_threshold
    (exps.map (fun e => (rowSim env stored e, e))) _ _ _ hok j
  rw [hchar]
  by_cases hj : j < exps.length
  · have hget : (exps.map (fun e => (rowSim env stored e, e))).getD (j - 0) dPair =
        (rowSim env stored (exps.getD j dExp), exps.getD j dExp) := by
      simpa using getD_map_lt (fun e => (rowSim env stored e, e)) hj dPair dExp
    rw [hget]
    by_cases hf : flipCond s.llm_confidence_threshold
        (rowSim env stored (exps.getD j dExp)) (exps.getD j dExp) = true
    · rw [if_pos ⟨Nat.zero_le j, by simpa using hj, hf⟩, if_pos ⟨hj, hf⟩]
    · rw [if_neg (fun hc => hf hc.2.2), if_neg (fun hc => hf hc.2)]
  · rw [if_neg (fun hc => hj (by simpa using hc.2.1)), if_neg (fun hc => hj hc.1)]

/-- On every path, each returned label is either the base label or `-1`. -/
lemma predict_ok_or (env : Env) (s : DetectorState) (X : List (List ℚ))
    (expl : Option (List Explanation)) (res : List Int)
    (hok : SemiSupervisedAnomalyDetector.predict env s X expl = Except.ok res)
    (j : Nat) :
    res.getD j 0 = (s.isolation_forest.predictFn X).getD j 0 ∨ res.getD j 0 = -1 := by
  rcases predict_cases env s X expl with h | ⟨exps, stored, _, _, _, _, _, h⟩
  · rw [h] at hok
    cases hok
    left
    rfl
  · rw [h] at hok
    have hchar := overrideLoop_getD s.llm_confidence_threshold
      (exps.map (fun e => (rowSim env stored e, e))) _ _ _ hok j
    rw [hchar]
    split
    · right; rfl
    · left; rfl

/-- On every path, a row whose own explanation does not assert
`is_anomaly = true` keeps its base label. -/
lemma predict_getD_of_not_anom (env : Env) (s : DetectorState) (X : List (List ℚ))
    (exps : List Explanation) (res : List Int)
    (hok : SemiSupervisedAnomalyDetector.predict env s X (some exps) = Except.ok res)
    (j : Nat)
    (hano : (exps.getD j dExp).is_anomaly.getD false = false) :
    res.getD j 0 = (s.isolation_forest.predictFn X).getD j 0 := by
  rcases predict_cases env s X (some exps) with h | ⟨exps2, stored, heq, _, hsup, hne, htext, h⟩
  · rw [h] at hok
    cases hok
    rfl
  · cases heq
    rw [predict_getD_main env s X exps stored res hsup (by assumption) hne
      (by simpa using htext) hok j, if_neg ?_]
    intro hc
    have hflip := hc.2
    simp only [flipCond, Bool.and_eq_true, decide_eq_true_eq] at hflip
    rw [hano] at hflip
    exact Bool.false_ne_true hflip.2

/-- On every path, rows at positions at or beyond the explanation list keep
their base label. -/
lemma predict_getD_tail (env : Env) (s : DetectorState) (X : List (List ℚ))
    (exps : List Explanation) (res : List Int)
    (hok : SemiSupervisedAnomalyDetector.predict env s X (some exps) = Except.ok res)
    (j : Nat) (hj : exps.length ≤ j) :
    res.getD j 0 = (s.isolation_forest.predictFn X).getD j 0 := by
  rcases predict_cases env s X (some exps) with h | ⟨exps2, stored, heq, _, hsup, hne, htext, h⟩
  · rw [h] at hok
    cases hok
    rfl
  · cases heq
    rw [predict_getD_main env s X exps stored res hsup (by assumption) hne
      (by simpa using htext) hok j, if_neg (fun hc => absurd hc.1 (by omega))]

/-- `predict` succeeds whenever the explanation list is no longer than the
base prediction vector. -/
lemma predict_isOk_of_le (env : Env) (s : DetectorState) (X : List (List ℚ))
    (exps : List Explanation)
    (hlen : exps.length ≤ (s.isolation_forest.predictFn X).length) :
    ∃ res, SemiSupervisedAnomalyDetector.predict env s X (some exps) =
      Except.ok res := by
  rcases predict_cases env s X (some exps) with h | ⟨exps2, stored, heq, _, _, _, _, h⟩
  · exact ⟨_, h⟩
  · cases heq
    rw [h]
    apply overrideLoop_isOk
    simpa using hlen

lemma extractTexts_length :
    ∀ (exps : List Explanation) (ts : List String),
      extractTexts exps = some ts → ts.length = exps.length := by
  intro exps
  induction exps with
  | nil =>
      intro ts h
      simp only [extractTexts] at h
      cases h
      rfl
  | cons e rest ih =>
      intro ts h
      simp only [extractTexts] at h
      cases he : e.explanation with
      | none => rw [he] at h; cases h
      | some t =>
          rw [he] at h
          cases hr : extractTexts rest with
          | none => rw [hr] at h; cases h
          | some ts2 =>
              rw [hr] at h
              cases h
              simp [ih ts2 hr]

lemma keptRecords_text_ne (exps : List Explanation) (fb : List Bool) :
    ∀ r ∈ keptRecords exps fb, r.explanation.getD "" ≠ "" := by
  intro r hr
  simp only [keptRecords, List.mem_map] at hr
  obtain ⟨p, hp, hpr⟩ := hr
  have := List.of_mem_filter hp
  simp only [Bool.and_eq_true, Bool.not_eq_true', beq_eq_false_iff_ne] at this
  rw [← hpr]
  exact this.2

lemma keptRecords_nil_of_allfalse (exps : List Explanation) (fb : List Bool)
    (h : fb.all (fun b => b = false) = true) : keptRecords exps fb = [] := by
  simp only [keptRecords, List.map_eq_nil_iff, List.filter_eq_nil_iff]
  intro p hp
  have hmem := List.of_mem_zip hp
  have := List.all_eq_true.mp h p.2 hmem.2
  simp only [decide_eq_true_eq] at this
  simp [this]

/-- After any `update_with_feedback` call, with supervision on the record
list is the old record list extended by exactly the kept records; with
supervision off the call is the identity. -/
lemma update_records (env : Env) (s : DetectorState) (X : List (List ℚ))
    (exps : List Explanation) (fb : List Bool) :
    (s.use_llm_supervision = false →
      SemiSupervisedAnomalyDetector.update_with_feedback env s X exps fb = (s, none)) ∧
    (s.use_llm_supervision = true →
      (SemiSupervisedAnomalyDetector.update_with_feedback env s X exps fb).1.llm_explanations_.getD [] =
        s.llm_explanations_.getD [] ++ keptRecords exps fb) := by
  constructor
  · intro h
    simp [SemiSupervisedAnomalyDetector.update_with_feedback, h]
  · intro h
    simp only [SemiSupervisedAnomalyDetector.update_with_feedback, h, Bool.not_true,
      Bool.false_eq_true, if_false]
    by_cases hk : (keptRecords exps fb).isEmpty = true
    · rw [if_pos hk]
      rw [List.isEmpty_iff] at hk
      simp [hk]
    · rw [if_neg hk]
      cases s.llm_embeddings_ with
      | none => simp
      | some stored => simp

/-- The error component of `update_with_feedback` is `none` or the
`NameError` of the missing `torch` import, and the latter happens exactly
when supervision is on, some record qualifies, and the embedding store is
already populated; in that case the embeddings are left untouched while
the record list has already been extended. -/
lemma update_err (env : Env) (s : DetectorState) (X : List (List ℚ))
    (exps : List Explanation) (fb : List Bool) :
    ((SemiSupervisedAnomalyDetector.update_with_feedback env s X exps fb).2 = none ∨
     (SemiSupervisedAnomalyDetector.update_with_feedback env s X exps fb).2 =
       some PyErr.nameError) ∧
    (s.use_llm_supervision = true → keptRecords exps fb ≠ [] →
      ∀ stored, s.llm_embeddings_ = some stored →
      (SemiSupervisedAnomalyDetector.update_with_feedback env s X exps fb).2 =
        some PyErr.nameError ∧
      (SemiSupervisedAnomalyDetector.update_with_feedback env s X exps fb).1.llm_embeddings_ =
        some stored) := by
  constructor
  · simp only [SemiSupervisedAnomalyDetector.update_with_feedback]
    split
    · left; rfl
    · split
      · left; rfl
      · cases s.llm_embeddings_ with
        | none => left; rfl
        | some stored => right; rfl
  · intro hsup hk stored hemb
    simp only [SemiSupervisedAnomalyDetector.update_with_feedback, hsup, Bool.not_true,
      Bool.false_eq_true, if_false, hemb]
    rw [if_neg (by simpa [List.isEmpty_iff] using hk)]
    exact ⟨rfl, rfl⟩

/-- `update_with_feedback` only ever touches the two store attributes. -/
lemma update_frame (env : Env) (s : DetectorState) (X : List (List ℚ))
    (exps : List Explanation) (fb : List Bool) :
    (SemiSupervisedAnomalyDetector.update_with_feedback env s X exps fb).1.contamination =
      s.contamination ∧
    (SemiSupervisedAnomalyDetector.update_with_feedback env s X exps fb).1.n_estimators =
      s.n_estimators ∧
    (SemiSupervisedAnomalyDetector.update_with_feedback env s X exps fb).1.random_state =
      s.random_state ∧
    (SemiSupervisedAnomalyDetector.update_with_feedback env s X exps fb).1.llm_confidence_threshold =
      s.llm_confidence_threshold ∧
    (SemiSupervisedAnomalyDetector.update_with_feedback env s X exps fb).1.use_llm_supervision =
      s.use_llm_supervision ∧
    (SemiSupervisedAnomalyDetector.update_with_feedback env s X exps fb).1.isolation_forest =
      s.isolation_forest := by
  simp only [SemiSupervisedAnomalyDetector.update_with_feedback]
  split
  · exact ⟨rfl, rfl, rfl, rfl, rfl, rfl⟩
  · split
    · exact ⟨rfl, rfl, rfl, rfl, rfl, rfl⟩
    · cases s.llm_embeddings_ with
      | none => exact ⟨rfl, rfl, rfl, rfl, rfl, rfl⟩
      | some stored => exact ⟨rfl, rfl, rfl, rfl, rfl, rfl⟩

lemma flipCond_iff (thr sim : ℚ) (e : Explanation) :
    flipCond thr sim e = true ↔ thr < sim ∧ e.is_anomaly.getD false = true := by
  simp [flipCond]

lemma fitBase_snd (env : Env) (s : DetectorState) (X : List (List ℚ)) :
    (fitBase env s X).2 =
      if matrixOk X = true then none else some PyErr.dimensionError := by
  simp only [fitBase]
  split
  · rfl
  · rfl

lemma fitBase_stores (env : Env) (s : DetectorState) (X : List (List ℚ)) :
    (fitBase env s X).1.llm_explanations_ = s.llm_explanations_ ∧
    (fitBase env s X).1.llm_embeddings_ = s.llm_embeddings_ := by
  simp only [fitBase]
  split
  · exact ⟨rfl, rfl⟩
  · exact ⟨rfl, rfl⟩

/-- The error component of `fit` is `KeyError` exactly when supervision is
on, explanations were supplied, and some supplied record lacks its text
key. -/
lemma fit_keyError_iff (env : Env) (s : DetectorState) (X : List (List ℚ))
    (y : Option (List Int)) (expl : Option (List Explanation)) :
    (SemiSupervisedAnomalyDetector.fit env s X y expl).2 = some PyErr.keyError ↔
      s.use_llm_supervision = true ∧ expl ≠ none ∧
        extractTexts (expl.getD []) = none := by
  cases expl with
  | none =>
      simp only [SemiSupervisedAnomalyDetector.fit, fitBase_snd]
      constructor
      · intro h
        split at h <;> cases h
      · intro h
        exact absurd rfl h.2.1
  | some exps =>
      simp only [Option.getD_some]
      by_cases hsup : s.use_llm_supervision = true
      · simp only [SemiSupervisedAnomalyDetector.fit, hsup, if_true]
        cases hts : extractTexts exps with
        | none =>
            constructor
            · intro _
              exact ⟨trivial, Option.some_ne_none _, rfl⟩
            · intro _
              rfl
        | some ts =>
            simp only [fitBase_snd]
            constructor
            · intro h
              split at h <;> cases h
            · intro h
              cases h.2.2
      · have hsup2 : s.use_llm_supervision = false := by
          cases h : s.use_llm_supervision
          · rfl
          · exact absurd h hsup
        simp only [SemiSupervisedAnomalyDetector.fit, hsup2, Bool.false_eq_true,
          if_false, fitBase_snd]
        constructor
        · intro h
          split at h <;> cases h
        · intro h
          exact h.1.elim

/-- When supervision is on and every supplied record has its text key,
`fit` replaces both store attributes: the records verbatim, one embedding
per extracted text. -/
lemma fit_stores (env : Env) (s : DetectorState) (X : List (List ℚ))
    (y : Option (List Int)) (exps : List Explanation) (ts : List String)
    (hsup : s.use_llm_supervision = true)
    (hts : extractTexts exps = some ts) :
    (SemiSupervisedAnomalyDetector.fit env s X y (some exps)).1.llm_explanations_ =
      some exps ∧
    (SemiSupervisedAnomalyDetector.fit env s X y (some exps)).1.llm_embeddings_ =
      some (ts.map env.encode) := by
  simp only [SemiSupervisedAnomalyDetector.fit, hsup, if_true, hts]
  exact fitBase_stores env _ X

/-- When supervision is off or no explanations are supplied, `fit` leaves
both store attributes unchanged. -/
lemma fit_stores_id (env : Env) (s : DetectorState) (X : List (List ℚ))
    (y : Option (List Int)) (expl : Option (List Explanation))
    (h : s.use_llm_supervision = false ∨ expl = none) :
    (SemiSupervisedAnomalyDetector.fit env s X y expl).1.llm_explanations_ =
      s.llm_explanations_ ∧
    (SemiSupervisedAnomalyDetector.fit env s X y expl).1.llm_embeddings_ =
      s.llm_embeddings_ := by
  cases expl with
  | none =>
      simp only [SemiSupervisedAnomalyDetector.fit]
      exact fitBase_stores env s X
  | some exps =>
      rcases h with h | h
      · simp only [SemiSupervisedAnomalyDetector.fit, h, Bool.false_eq_true, if_false]
        exact fitBase_stores env s X
      · cases h

/-- When nothing qualifies, `update_with_feedback` is the identity. -/
lemma update_of_kept_nil (env : Env) (s : DetectorState) (X : List (List ℚ))
    (exps : List Explanation) (fb : List Bool)
    (hk : keptRecords exps fb = []) :
    SemiSupervisedAnomalyDetector.update_with_feedback env s X exps fb = (s, none) := by
  cases hu : s.use_llm_supervision
  · exact (update_records env s X exps fb).1 hu
  · simp [SemiSupervisedAnomalyDetector.update_with_feedback, hu, hk]

/-- The seeding path of `update_with_feedback`: supervision on, something
qualifies, embedding store still `None`. -/
lemma update_seed (env : Env) (s : DetectorState) (X : List (List ℚ))
    (exps : List Explanation) (fb : List Bool)
    (hsup : s.use_llm_supervision = true)
    (hk : keptRecords exps fb ≠ [])
    (hemb : s.llm_embeddings_ = none) :
    SemiSupervisedAnomalyDetector.update_with_feedback env s X exps fb =
      ({ s with
          llm_explanations_ :=
            some (s.llm_explanations_.getD [] ++ keptRecords exps fb),
          llm_embeddings_ :=
            some ((keptRecords exps fb).map
              (fun r => env.encode (r.explanation.getD ""))) }, none) := by
  simp only [SemiSupervisedAnomalyDetector.update_with_feedback, hsup, Bool.not_true,
    Bool.false_eq_true, if_false, hemb]
  rw [if_neg (by simpa [List.isEmpty_iff] using hk)]

/- Claim theorems. -/

/-- C1 counterexample: on a fitted detector with supervision on, a
non-empty store whose single (hence most-similar) record has
`is_anomaly = false`, and one non-empty row explanation asserting anomaly
with similarity 1 > 7/10, `predict` still flips the base label 1 to -1.
The claim requires the most-similar stored record to have
`is_anomaly = true` for the flip, so the claim is false on the code: the
stored record's flag is never consulted. -/
theorem c1_counterexample :
    SemiSupervisedAnomalyDetector.predict envEx stateExFalse [[5]]
        (some [Explanation.mk (some "crash now") (some true)]) = Except.ok [-1] ∧
    stateExFalse.isolation_forest.predictFn [[5]] = [1] ∧
    stateExFalse.llm_explanations_ =
      some [Explanation.mk (some "normal volatility") (some false)] ∧
    stateExFalse.llm_embeddings_ = some [[1]] ∧
    stateExFalse.use_llm_supervision = true := by
  exact ⟨rfl, rfl, rfl, rfl, rfl⟩

/-- C1 (amended): for every fitted detector with supervision on, a
non-empty store and a supplied explanations sequence with at least one
non-empty text, `predict` flips row `i` to anomaly exactly when row `i`'s
maximal store similarity is strictly greater than the confidence threshold
AND row `i`'s own explanation asserts `is_anomaly = true`; the stored
records' `is_anomaly` flags are not consulted, and a similarity exactly
equal to the threshold never triggers the override. -/
theorem c1_override_rule (env : Env) (s : DetectorState) (X : List (List ℚ))
    (exps : List Explanation) (stored : List (List ℚ)) (res : List Int) (i : Nat)
    (hsup : s.use_llm_supervision = true)
    (hstore : s.llm_embeddings_ = some stored)
    (hne : stored.length ≠ 0)
    (htext : ((exps.map (fun e => e.explanation.getD "")).all (fun t => t = "")) = false)
    (hok : SemiSupervisedAnomalyDetector.predict env s X (some exps) = Except.ok res)
    (hi : i < exps.length) :
    res.getD i 0 =
      if s.llm_confidence_threshold < rowSim env stored (exps.getD i dExp) ∧
          (exps.getD i dExp).is_anomaly.getD false = true
      then -1 else (s.isolation_forest.predictFn X).getD i 0 := by
  rw [predict_getD_main env s X exps stored res hsup hstore hne htext hok i]
  by_cases hc : s.llm_confidence_threshold < rowSim env stored (exps.getD i dExp) ∧
      (exps.getD i dExp).is_anomaly.getD false = true
  · rw [if_pos ⟨hi, (flipCond_iff _ _ _).mpr hc⟩, if_pos hc]
  · rw [if_neg (fun h2 => hc ((flipCond_iff _ _ _).mp h2.2)), if_neg hc]

/-- C1 witness: the amended override rule evaluated on a concrete input
where the override fires. -/
theorem c1_override_rule_witness :
    ([-1] : List Int).getD 0 0 =
      if stateEx.llm_confidence_threshold <
            rowSim envEx [[1]] (([Explanation.mk (some "crash now") (some true)]).getD 0 dExp) ∧
          (([Explanation.mk (some "crash now") (some true)]).getD 0 dExp).is_anomaly.getD
            false = true
      then -1 else (stateEx.isolation_forest.predictFn [[5]]).getD 0 0 :=
  c1_override_rule envEx stateEx [[5]] [Explanation.mk (some "crash now") (some true)]
    [[1]] [-1] 0 rfl rfl (by decide) (by decide) (by rfl) (by decide)

/-- C2 counterexample: a row whose explanation text is empty but whose
`is_anomaly` flag is true is flipped from the base label 1 to -1 when the
embedding of the empty text is similar enough to a stored record, because
the override loop never re-checks text emptiness. The claim says such a
row always keeps the base label. -/
theorem c2_counterexample :
    SemiSupervisedAnomalyDetector.predict envEx stateEx [[5], [6]]
        (some [Explanation.mk (some "") (some true),
               Explanation.mk (some "volume spike") (some false)]) =
      Except.ok [-1, 1] ∧
    stateEx.isolation_forest.predictFn [[5], [6]] = [1, 1] := by
  exact ⟨rfl, rfl⟩

/-- C2 (amended): on every path of `predict`, a row whose explanation does
not assert `is_anomaly = true` (in particular any row whose explanation
record has `is_anomaly` false or missing) keeps its base label; a row with
empty text but `is_anomaly = true` can still be flipped, since the empty
text is embedded like any other text. -/
theorem c2_empty_text (env : Env) (s : DetectorState) (X : List (List ℚ))
    (exps : List Explanation) (res : List Int) (j : Nat)
    (hok : SemiSupervisedAnomalyDetector.predict env s X (some exps) = Except.ok res)
    (hano : (exps.getD j dExp).is_anomaly.getD false = false) :
    res.getD j 0 = (s.isolation_forest.predictFn X).getD j 0 :=
  predict_getD_of_not_anom env s X exps res hok j hano

/-- C2 witness: a row with an explanation tagged non-anomalous keeps its
base label. -/
theorem c2_empty_text_witness :
    ([1] : List Int).getD 0 0 = (stateEx.isolation_forest.predictFn [[5]]).getD 0 0 :=
  c2_empty_text envEx stateEx [[5]] [Explanation.mk (some "odd candle") (some false)]
    [1] 0 (by rfl) (by rfl)

/-- C3: the override is one-directional. For every input and explanation
argument, if the base scorer labels row `i` as anomaly (-1), the label
`predict` returns for row `i` is still -1: the loop only ever assigns -1,
so a base anomaly is never demoted — also when the most-similar stored
record has `is_anomaly = false`. -/
theorem c3_monotone (env : Env) (s : DetectorState) (X : List (List ℚ))
    (expl : Option (List Explanation)) (res : List Int) (i : Nat)
    (hok : SemiSupervisedAnomalyDetector.predict env s X expl = Except.ok res)
    (hbase : (s.isolation_forest.predictFn X).getD i 0 = -1) :
    res.getD i 0 = -1 := by
  rcases predict_ok_or env s X expl res hok i with h | h
  · rw [h, hbase]
  · exact h

/-- C3 witness: a base-flagged anomaly stays anomalous through `predict`
even though the store's only record is non-anomalous. -/
theorem c3_monotone_witness : ([-1] : List Int).getD 0 0 = -1 :=
  c3_monotone envEx stateExFalse [[-2]]
    (some [Explanation.mk (some "looks fine") (some false)]) [-1] 0
    (by rfl) (by decide)

/-- C4: `predict` returns exactly the base scorer's labels whenever
supervision is off, or `explanations` is omitted, or the store is unseeded
or empty, or every supplied explanation text is empty. -/
theorem c4_passthrough (env : Env) (s : DetectorState) (X : List (List ℚ))
    (expl : Option (List Explanation))
    (h : s.use_llm_supervision = false ∨ expl = none ∨
         s.llm_embeddings_ = none ∨ s.llm_embeddings_ = some [] ∨
         ((expl.getD []).map (fun e => e.explanation.getD "")).all
           (fun t => t = "") = true) :
    SemiSupervisedAnomalyDetector.predict env s X expl =
      Except.ok (s.isolation_forest.predictFn X) :=
  predict_passthrough env s X expl h

/-- C4 witness: with `explanations` omitted the base labels pass through
unchanged. -/
theorem c4_passthrough_witness :
    SemiSupervisedAnomalyDetector.predict envEx stateEx [[3], [-4]] none =
      Except.ok (stateEx.isolation_forest.predictFn [[3], [-4]]) :=
  c4_passthrough envEx stateEx [[3], [-4]] none (Or.inr (Or.inl rfl))


/-- C5 counterexample: on a detector with `use_llm_supervision = false`,
`update_with_feedback` with a true-feedback, non-empty-text record appends
nothing — the state is returned unchanged — while the claim requires that
record to be appended for every detector state. -/
theorem c5_counterexample :
    SemiSupervisedAnomalyDetector.update_with_feedback envEx stateOff [[1]]
        [Explanation.mk (some "volume spike") (some true)] [true] = (stateOff, none) ∧
    stateOff.llm_explanations_ =
      some [Explanation.mk (some "flash crash") (some true)] := by
  exact ⟨rfl, rfl⟩

/-- C5 (amended): when supervision is on, `update_with_feedback` extends the
record list by exactly the records with true feedback and non-empty text,
in input order; when supervision is off it is the identity; the record-list
size never decreases; all-false feedback leaves the detector unchanged; and
when supervision is on, some record qualifies and the embedding store is
already populated, the call raises the `NameError` of the missing
`torch` name after extending the record list but leaves the embeddings
unchanged. -/
theorem c5_update_append (env : Env) (s : DetectorState) (X : List (List ℚ))
    (exps : List Explanation) (fb : List Bool) :
    (s.use_llm_supervision = true →
      (SemiSupervisedAnomalyDetector.update_with_feedback env s X exps fb).1.llm_explanations_.getD []
        = s.llm_explanations_.getD [] ++ keptRecords exps fb) ∧
    (s.use_llm_supervision = false →
      SemiSupervisedAnomalyDetector.update_with_feedback env s X exps fb = (s, none)) ∧
    (s.llm_explanations_.getD []).length ≤
      ((SemiSupervisedAnomalyDetector.update_with_feedback env s X exps fb).1.llm_explanations_.getD []).length ∧
    (fb.all (fun b => b = false) = true →
      SemiSupervisedAnomalyDetector.update_with_feedback env s X exps fb = (s, none)) ∧
    (s.use_llm_supervision = true → keptRecords exps fb ≠ [] →
      ∀ stored, s.llm_embeddings_ = some stored →
        (SemiSupervisedAnomalyDetector.update_with_feedback env s X exps fb).2 =
          some PyErr.nameError ∧
        (SemiSupervisedAnomalyDetector.update_with_feedback env s X exps fb).1.llm_embeddings_ =
          some stored) := by
  refine ⟨(update_records env s X exps fb).2, (update_records env s X exps fb).1, ?_, ?_,
    (update_err env s X exps fb).2⟩
  · cases hu : s.use_llm_supervision
    · rw [(update_records env s X exps fb).1 hu]
    · rw [(update_records env s X exps fb).2 hu]
      simp
  · intro hall
    have hk := keptRecords_nil_of_allfalse exps fb hall
    cases hu : s.use_llm_supervision
    · exact (update_records env s X exps fb).1 hu
    · simp [SemiSupervisedAnomalyDetector.update_with_feedback, hu, hk]

/-- C5 witness: on a supervision-on detector with an unseeded embedding
store, a confirmed record is appended. -/
theorem c5_update_append_witness :
    (SemiSupervisedAnomalyDetector.update_with_feedback envEx freshState [[1]]
        [Explanation.mk (some "volume spike") (some true)] [true]).1.llm_explanations_.getD []
      = freshState.llm_explanations_.getD [] ++
        keptRecords [Explanation.mk (some "volume spike") (some true)] [true] :=
  (c5_update_append envEx freshState [[1]]
    [Explanation.mk (some "volume spike") (some true)] [true]).1 rfl

/-- C6: `update_with_feedback` mutates only the two store attributes: the
hyperparameters and the fitted base scorer of the resulting state are the
ones of the input state, on every path (including the `NameError` path).
`predict` and `score_samples` contain no attribute assignment in the
source and are correspondingly embedded as pure functions of the state. -/
theorem c6_update_frame (env : Env) (s : DetectorState) (X : List (List ℚ))
    (exps : List Explanation) (fb : List Bool) :
    (SemiSupervisedAnomalyDetector.update_with_feedback env s X exps fb).1.contamination =
      s.contamination ∧
    (SemiSupervisedAnomalyDetector.update_with_feedback env s X exps fb).1.n_estimators =
      s.n_estimators ∧
    (SemiSupervisedAnomalyDetector.update_with_feedback env s X exps fb).1.random_state =
      s.random_state ∧
    (SemiSupervisedAnomalyDetector.update_with_feedback env s X exps fb).1.llm_confidence_threshold =
      s.llm_confidence_threshold ∧
    (SemiSupervisedAnomalyDetector.update_with_feedback env s X exps fb).1.use_llm_supervision =
      s.use_llm_supervision ∧
    (SemiSupervisedAnomalyDetector.update_with_feedback env s X exps fb).1.isolation_forest =
      s.isolation_forest :=
  update_frame env s X exps fb

/-- C7 counterexample: `predict` on three rows with a one-element
explanations sequence — a row-count mismatch between `X` and the
row-aligned `explanations` — completes normally instead of raising the
claimed `DimensionError`. -/
theorem c7_counterexample :
    SemiSupervisedAnomalyDetector.predict envEx stateEx [[5], [6], [7]]
        (some [Explanation.mk (some "weird wick") (some false)]) =
      Except.ok [1, 1, 1] := by
  rfl

/-- C7 (amended): `fit` surfaces the base scorer's `DimensionError`
whenever `X` is empty or ragged (provided no earlier `KeyError` from a
record missing its text key); but a row-count mismatch between `X` and a
supplied explanations sequence raises nothing: `predict` pairs
explanations with rows positionally and completes whenever the sequence is
not longer than the base prediction vector. -/
theorem c7_structural_errors (env : Env) (s : DetectorState)
    (X X2 : List (List ℚ)) (y : Option (List Int))
    (expl : Option (List Explanation)) (exps : List Explanation)
    (hbad : matrixOk X = false)
    (hkeys : extractTexts (expl.getD []) ≠ none)
    (hlen : exps.length ≤ (s.isolation_forest.predictFn X2).length) :
    (SemiSupervisedAnomalyDetector.fit env s X y expl).2 = some PyErr.dimensionError ∧
    ∃ res, SemiSupervisedAnomalyDetector.predict env s X2 (some exps) =
      Except.ok res := by
  constructor
  · cases expl with
    | none =>
        simp [SemiSupervisedAnomalyDetector.fit, fitBase_snd, hbad]
    | some exps2 =>
        by_cases hsup : s.use_llm_supervision = true
        · simp only [SemiSupervisedAnomalyDetector.fit, hsup, if_true]
          cases hts : extractTexts exps2 with
          | none => exact absurd (by simpa using hts) hkeys
          | some ts => simp [fitBase_snd, hbad]
        · have hsup2 : s.use_llm_supervision = false := by
            cases h2 : s.use_llm_supervision
            · rfl
            · exact absurd h2 hsup
          simp [SemiSupervisedAnomalyDetector.fit, hsup2, fitBase_snd, hbad]
  · exact predict_isOk_of_le env s X2 exps hlen

/-- C7 witness: a ragged matrix makes `fit` surface `DimensionError`. -/
theorem c7_structural_errors_witness :
    (SemiSupervisedAnomalyDetector.fit envEx stateEx [[1], [2, 3]] none none).2 =
      some PyErr.dimensionError :=
  (c7_structural_errors envEx stateEx [[1], [2, 3]] [[1], [2]] none none
    [Explanation.mk (some "t") (some true)] (by decide) (by decide) (by decide)).1

/-- C8 counterexample: with supervision on, `fit` given a record that lacks
its text key raises `KeyError` (line 63 subscripts the dict directly)
instead of treating the record as empty-text as the claim demands. -/
theorem c8_counterexample :
    (SemiSupervisedAnomalyDetector.fit envEx stateEx [[1]] none
        (some [Explanation.mk none (some true)])).2 = some PyErr.keyError := by
  rfl

/-- C8 (amended): `predict` and `update_with_feedback` treat a record
missing its `is_anomaly` key as non-anomalous and never raise `KeyError`
for a missing field; `fit`, by contrast, raises `KeyError` exactly when
supervision is on and some supplied record lacks its text key. -/
theorem c8_missing_keys (env : Env) (s : DetectorState) (X : List (List ℚ))
    (expl : Option (List Explanation)) (exps : List Explanation) (fb : List Bool)
    (y : Option (List Int)) (res : List Int) (j : Nat)
    (hok : SemiSupervisedAnomalyDetector.predict env s X expl = Except.ok res)
    (hmiss : ((expl.getD []).getD j dExp).is_anomaly = none) :
    res.getD j 0 = (s.isolation_forest.predictFn X).getD j 0 ∧
    (SemiSupervisedAnomalyDetector.update_with_feedback env s X exps fb).2 ≠
      some PyErr.keyError ∧
    ((SemiSupervisedAnomalyDetector.fit env s X y (some exps)).2 =
        some PyErr.keyError ↔
      s.use_llm_supervision = true ∧ extractTexts exps = none) := by
  refine ⟨?_, ?_, ?_⟩
  · cases expl with
    | none =>
        rw [predict_passthrough env s X none (Or.inr (Or.inl rfl))] at hok
        cases hok
        rfl
    | some exps2 =>
        apply predict_getD_of_not_anom env s X exps2 res hok j
        simp only [Option.getD_some] at hmiss
        rw [hmiss]
        rfl
  · intro h
    rcases (update_err env s X exps fb).1 with h2 | h2 <;> rw [h] at h2 <;> cases h2
  · rw [fit_keyError_iff env s X y (some exps)]
    constructor
    · intro h
      exact ⟨h.1, by simpa using h.2.2⟩
    · intro h
      exact ⟨h.1, Option.some_ne_none _, by simpa using h.2⟩

/-- C8 witness: a record whose `is_anomaly` key is missing leaves its row's
base label unchanged in `predict`. -/
theorem c8_missing_keys_witness :
    ([1] : List Int).getD 0 0 =
      (stateEx.isolation_forest.predictFn [[2]]).getD 0 0 :=
  (c8_missing_keys envEx stateEx [[2]] (some [Explanation.mk (some "hm") none])
    [Explanation.mk (some "a") (some true)] [] none [1] 0 (by rfl) (by rfl)).1

/-- C9 counterexample: a successful `fit` with one empty-text explanation
stores that record verbatim, so the Explanation Store holds a record with
empty text — the claimed invariant is violated right after `fit`. -/
theorem c9_counterexample :
    (SemiSupervisedAnomalyDetector.fit envEx freshState [[1]] none
        (some [Explanation.mk (some "") (some false)])).1.llm_explanations_ =
      some [Explanation.mk (some "") (some false)] ∧
    (SemiSupervisedAnomalyDetector.fit envEx freshState [[1]] none
        (some [Explanation.mk (some "") (some false)])).2 = none := by
  exact ⟨rfl, rfl⟩

/-- C9 (amended): when the embedder has fixed output length `e` and the
store is aligned, any `fit` or `update_with_feedback` call that completes
without an exception leaves the stored record and embedding sequences of
equal length with every embedding of length `e`; every record that
`update_with_feedback` adds has non-empty text (while `fit` stores the
supplied records verbatim, so an empty text can enter the store through
`fit`, and a failed update leaves the two sequences misaligned). -/
theorem c9_store_invariant (env : Env) (s : DetectorState) (X : List (List ℚ))
    (y : Option (List Int)) (expl : Option (List Explanation))
    (exps : List Explanation) (fb : List Bool) (e : Nat)
    (henc : ∀ t, (env.encode t).length = e)
    (halign : (s.llm_explanations_.getD []).length =
      (s.llm_embeddings_.getD []).length)
    (hdim : ∀ v ∈ s.llm_embeddings_.getD [], v.length = e) :
    ((SemiSupervisedAnomalyDetector.fit env s X y expl).2 = none →
      ((SemiSupervisedAnomalyDetector.fit env s X y expl).1.llm_explanations_.getD []).length =
        ((SemiSupervisedAnomalyDetector.fit env s X y expl).1.llm_embeddings_.getD []).length ∧
      ∀ v ∈ (SemiSupervisedAnomalyDetector.fit env s X y expl).1.llm_embeddings_.getD [],
        v.length = e) ∧
    ((SemiSupervisedAnomalyDetector.update_with_feedback env s X exps fb).2 = none →
      ((SemiSupervisedAnomalyDetector.update_with_feedback env s X exps fb).1.llm_explanations_.getD []).length =
        ((SemiSupervisedAnomalyDetector.update_with_feedback env s X exps fb).1.llm_embeddings_.getD []).length ∧
      ∀ v ∈ (SemiSupervisedAnomalyDetector.update_with_feedback env s X exps fb).1.llm_embeddings_.getD [],
        v.length = e) ∧
    (∀ r ∈ (SemiSupervisedAnomalyDetector.update_with_feedback env s X exps fb).1.llm_explanations_.getD [],
      r ∈ s.llm_explanations_.getD [] ∨ r.explanation.getD "" ≠ "") := by
  refine ⟨?_, ?_, ?_⟩
  · intro hfit
    cases expl with
    | none =>
        have hs := fit_stores_id env s X y none (Or.inr rfl)
        rw [hs.1, hs.2]
        exact ⟨halign, hdim⟩
    | some exps2 =>
        by_cases hsup : s.use_llm_supervision = true
        · cases hts : extractTexts exps2 with
          | none =>
              have hke := (fit_keyError_iff env s X y (some exps2)).mpr
                ⟨hsup, Option.some_ne_none _, by simpa using hts⟩
              rw [hfit] at hke
              cases hke
          | some ts =>
              have hs := fit_stores env s X y exps2 ts hsup hts
              rw [hs.1, hs.2]
              constructor
              · simp [extractTexts_length exps2 ts hts]
              · intro v hv
                simp only [Option.getD_some, List.mem_map] at hv
                obtain ⟨t, _, rfl⟩ := hv
                exact henc t
        · have hsup2 : s.use_llm_supervision = false := by simpa using hsup
          have hs := fit_stores_id env s X y (some exps2) (Or.inl hsup2)
          rw [hs.1, hs.2]
          exact ⟨halign, hdim⟩
  · intro hupd
    by_cases hsup : s.use_llm_supervision = true
    · by_cases hk : keptRecords exps fb = []
      · rw [update_of_kept_nil env s X exps fb hk]
        exact ⟨halign, hdim⟩
      · cases hemb : s.llm_embeddings_ with
        | some stored =>
            have herr := (update_err env s X exps fb).2 hsup hk stored hemb
            rw [herr.1] at hupd
            cases hupd
        | none =>
            rw [update_seed env s X exps fb hsup hk hemb]
            have h0 : (s.llm_explanations_.getD []).length = 0 := by
              rw [halign, hemb]
              rfl
            constructor
            · simp [h0]
            · intro v hv
              simp only [Option.getD_some, List.mem_map] at hv
              obtain ⟨r, _, rfl⟩ := hv
              exact henc _
    · have hsup2 : s.use_llm_supervision = false := by simpa using hsup
      rw [(update_records env s X exps fb).1 hsup2]
      exact ⟨halign, hdim⟩
  · intro r hr
    by_cases hsup : s.use_llm_supervision = true
    · rw [(update_records env s X exps fb).2 hsup] at hr
      rcases List.mem_append.mp hr with h | h
      · exact Or.inl h
      · exact Or.inr (keptRecords_text_ne exps fb r h)
    · have hsup2 : s.use_llm_supervision = false := by simpa using hsup
      rw [(update_records env s X exps fb).1 hsup2] at hr
      exact Or.inl hr

/-- C9 witness: a seeding feedback call leaves records and embeddings of
equal length. -/
theorem c9_store_invariant_witness :
    ((SemiSupervisedAnomalyDetector.update_with_feedback envEx freshState [[1]]
        [Explanation.mk (some "price dip") (some true)] [true]).1.llm_explanations_.getD []).length =
      ((SemiSupervisedAnomalyDetector.update_with_feedback envEx freshState [[1]]
        [Explanation.mk (some "price dip") (some true)] [true]).1.llm_embeddings_.getD []).length := by
  have h := c9_store_invariant envEx freshState [[1]] none none
    [Explanation.mk (some "price dip") (some true)] [true] 1
    (fun t => rfl) (by rfl) (by intro v hv; cases hv)
  exact (h.2.1 (by rfl)).1

/-- C10: with supervision on and a non-empty store, `predict` given an
explanations sequence shorter than the number of rows of `X` does not
raise, and every row at an index at or beyond the length of the sequence
keeps the base scorer's label (the source zips similarities with the
shorter sequence, so the loop never reaches those rows). -/
theorem c10_shorter_explanations (env : Env) (s : DetectorState)
    (X : List (List ℚ)) (exps : List Explanation) (stored : List (List ℚ))
    (hsup : s.use_llm_supervision = true)
    (hstore : s.llm_embeddings_ = some stored)
    (hne : stored.length ≠ 0)
    (hrows : (s.isolation_forest.predictFn X).length = X.length)
    (hlen : exps.length < X.length) :
    ∃ res, SemiSupervisedAnomalyDetector.predict env s X (some exps) =
        Except.ok res ∧
      ∀ i, exps.length ≤ i →
        res.getD i 0 = (s.isolation_forest.predictFn X).getD i 0 := by
  obtain ⟨res, hok⟩ := predict_isOk_of_le env s X exps (by omega)
  exact ⟨res, hok, fun i hi => predict_getD_tail env s X exps res hok i hi⟩

/-- C10 witness: two rows, one explanation; the call succeeds and row 1
keeps its base label. -/
theorem c10_shorter_explanations_witness :
    ([-1, 1] : List Int).getD 1 0 =
      (stateEx.isolation_forest.predictFn [[1], [2]]).getD 1 0 := by
  obtain ⟨res, hok, htail⟩ := c10_shorter_explanations envEx stateEx [[1], [2]]
    [Explanation.mk (some "crash") (some true)] [[1]] rfl rfl (by decide)
    (by decide) (by decide)
  have h2 : SemiSupervisedAnomalyDetector.predict envEx stateEx [[1], [2]]
      (some [Explanation.mk (some "crash") (some true)]) =
        Except.ok ([-1, 1] : List Int) := by rfl
  rw [hok] at h2
  injection h2 with h3
  rw [← h3]
  exact htail 1 (by decide)
